import Mathlib

/-!
# Verification of the agent session and stream-reconstruction engine

Shallow embedding of the buildship agent runner:
* the session repository (`session-utils`): `syncSession`, `switchSession`,
  `deleteSession`, `createSessionFromResponse`;
* the debug trace reducer (`debug-handlers`): the per-event handlers folding
  typed debug/reasoning/handoff events into per-execution traces;
* the stream consumer (`use-agent`): the `llm_text_delta` branch of
  `onmessage`, the execution-id handling in `onopen`, and `handleSend`;
* the synced storage atom (`atomWithSyncedLocalStorage`).

JavaScript objects keyed by strings are modelled as insertion-ordered
association lists without duplicate keys (`{...obj, [k]: v}` keeps an existing
key at its position, a new key is appended; `delete obj[k]` removes the key).
`undefined` is modelled by `Option`; `Date.now()` values are explicit `now`
parameters.  Mutable-object reference identity (the `===` check in
`handleSend`) is modelled by an allocation tag on message objects: every
object literal created by the code receives a fresh tag.
-/

set_option maxHeartbeats 1000000

namespace AgentRunner

/-- Message roles, from `types.ts`. -/
inductive Role where
  | user
  | agent
deriving DecidableEq, Repr

/-- A transcript message, from `types.ts` (`Message`). -/
structure Message where
  role : Role
  content : String
  executionId : Option String
deriving DecidableEq, Repr

/-- `TEMPORARY_SESSION_ID` from `atoms.ts`. -/
def TEMPORARY_SESSION_ID : String := "sess_temp"

/-- `DEFAULT_SESSION_NAME` from `atoms.ts`. -/
def DEFAULT_SESSION_NAME : String := "New Chat"

/-- A persisted session, from `types.ts` (`Session`).  `id`, `createdAt` and
`name` are optional because `syncSessionRef` spreads a possibly-`undefined`
previous record (`{...prev[agentId]?.[currentSessionId], messages, updatedAt}`),
which produces a record carrying only `messages` and `updatedAt`. -/
structure Session where
  id : Option String
  createdAt : Option Nat
  updatedAt : Nat
  messages : List Message
  name : Option String
deriving DecidableEq, Repr

/-- A JavaScript object `{sessionId: Session}`: insertion-ordered association
list with unique keys. -/
abbrev SessionMap := List (String × Session)

/-- `obj[k]` on a session map. -/
def objLookup (m : SessionMap) (k : String) : Option Session :=
  (m.find? (fun kv => kv.1 == k)).map (fun kv => kv.2)

/-- `{...obj, [k]: v}`: replace the value at an existing key in place, or
append the new key at the end. -/
def objSet : SessionMap → String → Session → SessionMap
  | [], k, v => [(k, v)]
  | kv :: rest, k, v => if kv.1 = k then (k, v) :: rest else kv :: objSet rest k v

/-- `delete obj[k]`. -/
def objDelete (m : SessionMap) (k : String) : SessionMap :=
  m.filter (fun kv => kv.1 != k)

/-- `Object.values(obj)`. -/
def objValues (m : SessionMap) : List Session :=
  m.map (fun kv => kv.2)

/-- The state owned by `useSessionUtils`: the persisted
`agentId -> sessionId -> Session` map (absent agent keys read as the empty
map, matching `allSessions[agentId] || {}`), and the current session id
(`Option` because `setCurrentSessionId(mostRecent.id)` can store a record's
`undefined` id). -/
structure RepoState where
  allSessions : String → SessionMap
  currentSessionId : Option String

/-- The guard `!currentSessionId || currentSessionId === TEMPORARY_SESSION_ID`
(JavaScript falsiness: `undefined` or the empty string). -/
def isFalsyOrTemp : Option String → Bool
  | none => true
  | some s => s == "" || s == TEMPORARY_SESSION_ID

/-- `syncSessionRef.current` from `session-utils` (lines 17-33).  The caller
resolves `updatedMessages ?? messagesRef.current` to `msgs`. -/
def syncSession (agentId : String) (now : Nat) (msgs : List Message) (st : RepoState) : RepoState :=
  if isFalsyOrTemp st.currentSessionId then st
  else
    match st.currentSessionId with
    | none => st
    | some cur =>
      let newSession : Session :=
        match objLookup (st.allSessions agentId) cur with
        | some s => { s with messages := msgs, updatedAt := now }
        | none => { id := none, createdAt := none, updatedAt := now, messages := msgs, name := none }
      { st with allSessions := fun a =>
          if a = agentId then objSet (st.allSessions agentId) cur newSession
          else st.allSessions a }

/-- `switchSession(sessionId = TEMPORARY_SESSION_ID)`; `none` models calling
with no argument. -/
def switchSession (sessionId : Option String) (st : RepoState) : RepoState :=
  { st with currentSessionId := some (sessionId.getD TEMPORARY_SESSION_ID) }

/-- `sessions.sort((a, b) => b.updatedAt - a.updatedAt)`. -/
def sortByUpdatedAtDesc (l : List Session) : List Session :=
  l.mergeSort (fun a b => decide (b.updatedAt ≤ a.updatedAt))

/-- `deleteSession` from `session-utils` (lines 47-74).  The re-selection
filters the pre-delete `Object.values` by the records' `id` field
(`s.id !== sessionId`) and takes the head of the sort by descending
`updatedAt`. -/
def deleteSession (agentId : String) (sessionId : String) (st : RepoState) : RepoState :=
  if sessionId == "" || sessionId == TEMPORARY_SESSION_ID then st
  else
    let allSessions1 : String → SessionMap := fun a =>
      if a = agentId then objDelete (st.allSessions agentId) sessionId
      else st.allSessions a
    let current1 : Option String :=
      if st.currentSessionId = some sessionId then
        let remainingSessions :=
          (objValues (st.allSessions agentId)).filter (fun s => s.id != some sessionId)
        match (sortByUpdatedAtDesc remainingSessions).head? with
        | some mostRecent => mostRecent.id
        | none => some TEMPORARY_SESSION_ID
      else st.currentSessionId
    { allSessions := allSessions1, currentSessionId := current1 }

/-- `createSessionFromResponse` from `session-utils` (lines 81-99). -/
def createSessionFromResponse (agentId : String) (now : Nat) (sessionId : String)
    (sessionName : String) (currentMessages : List Message) (st : RepoState) : RepoState :=
  let newSession : Session :=
    { id := some sessionId, createdAt := some now, updatedAt := now,
      messages := currentMessages, name := some sessionName }
  let updated := fun a =>
    if a = agentId then objSet (st.allSessions agentId) sessionId newSession
    else st.allSessions a
  { st with allSessions := updated }

/-- One session-repository operation, tagged with the agent id it is invoked
for.  `now` stands for the `Date.now()` reads performed by the operation. -/
inductive RepoOp where
  | syncOp (now : Nat) (msgs : List Message)
  | switchOp (sessionId : Option String)
  | deleteOp (sessionId : String)
  | createOp (now : Nat) (sessionId : String) (name : String) (msgs : List Message)

/-- Dispatch one repository operation for one agent id. -/
def applyOp (st : RepoState) : String × RepoOp → RepoState
  | (agentId, RepoOp.syncOp now msgs) => syncSession agentId now msgs st
  | (_, RepoOp.switchOp sid) => switchSession sid st
  | (agentId, RepoOp.deleteOp sid) => deleteSession agentId sid st
  | (agentId, RepoOp.createOp now sid name msgs) =>
      createSessionFromResponse agentId now sid name msgs st

/-- A sequence of repository operations. -/
def applyOps (st : RepoState) (ops : List (String × RepoOp)) : RepoState :=
  ops.foldl applyOp st

/-! ## Debug trace reducer (`debug-handlers.ts`) -/

/-- Opaque event payload values (`unknown` in the source). -/
abbrev Value := String

/-- Tool execution status, from `types.ts`. -/
inductive ToolStatus where
  | progress
  | complete
  | error
deriving DecidableEq, Repr

/-- One trace item (`ToolExecutionItem`, `ReasoningItem`, `HandoffItem`). -/
inductive DebugItem where
  | tool (toolId : String) (toolCallId : Option String) (status : ToolStatus)
      (inputs : Option Value) (output : Option Value) (logs : Option (List Value))
  | reasoning (text : String)
  | handoff (agentName : String)
deriving DecidableEq, Repr

/-- The state of one `createDebugHandlers` instance: the
`executionId -> DebugDataType` map (absent keys read as `[]`, matching
`prev[executionId] || []`), and the closure variable `lastReasoningIndex`
(initially `-1`). -/
structure DebugState where
  debugData : String → List DebugItem
  lastReasoningIndex : Int

/-- `{...prev, [executionId]: currentData}` on the trace map. -/
def updateKey (g : String → List DebugItem) (k : String) (v : List DebugItem) :
    String → List DebugItem :=
  fun a => if a = k then v else g a

/-- Update the first element satisfying `p` (and only it), leaving the list
unchanged when none matches. -/
def updateFirst (p : DebugItem → Bool) (f : DebugItem → DebugItem) :
    List DebugItem → List DebugItem
  | [] => []
  | x :: xs => if p x then f x :: xs else x :: updateFirst p f xs

/-- The backward `for` loop with `break` shared by the debug handlers: update
the most recent element satisfying `p`, scanning from the end. -/
def updateFirstFromEnd (p : DebugItem → Bool) (f : DebugItem → DebugItem)
    (l : List DebugItem) : List DebugItem :=
  (updateFirst p f l.reverse).reverse

/-- The loop condition of the tool-event handlers:
`item.itemType === "tool_call" && item.toolCallId === toolCallId`
(two absent ids compare equal, as `undefined === undefined`). -/
def isToolWith (tcid : Option String) : DebugItem → Bool
  | DebugItem.tool _ tc _ _ _ _ => tc == tcid
  | _ => false

/-- The loop condition of the reasoning handler: `itemType === "reasoning"`. -/
def isReasoningItem : DebugItem → Bool
  | DebugItem.reasoning _ => true
  | _ => false

/-- `s || dflt` on an optional string (JavaScript `||`: `undefined` and the
empty string are falsy). -/
def jsOrString (s : Option String) (dflt : String) : String :=
  match s with
  | some t => if t == "" then dflt else t
  | none => dflt

/-- `handleDebugToolExecutionStarted`: append a fresh `progress` item. -/
def handleDebugToolExecutionStarted (st : DebugState) (executionId : String)
    (toolId : Option String) (toolCallId : Option String) : DebugState :=
  let newData := st.debugData executionId ++
    [DebugItem.tool (jsOrString toolId "unknown") toolCallId ToolStatus.progress none none none]
  { st with debugData := updateKey st.debugData executionId newData }

/-- The mutation of `handleDebugToolExecutionInputs`. -/
def setInputs (v : Value) : DebugItem → DebugItem
  | DebugItem.tool tid tc s _ out lg => DebugItem.tool tid tc s (some v) out lg
  | it => it

/-- The mutation of `handleDebugToolExecutionFinished`. -/
def setComplete (v : Value) : DebugItem → DebugItem
  | DebugItem.tool tid tc _ inp _ lg => DebugItem.tool tid tc ToolStatus.complete inp (some v) lg
  | it => it

/-- The mutation of `handleDebugToolExecutionError`. -/
def setErrorStatus (v : Value) : DebugItem → DebugItem
  | DebugItem.tool tid tc _ inp _ lg => DebugItem.tool tid tc ToolStatus.error inp (some v) lg
  | it => it

/-- The mutation of `handleDebugToolLog`:
`logs: [...(toolItem.logs || []), value[0]]`; `v` is the event's `value[0]`. -/
def appendLog (v : Value) : DebugItem → DebugItem
  | DebugItem.tool tid tc s inp out lg => DebugItem.tool tid tc s inp out (some ((lg.getD []) ++ [v]))
  | it => it

/-- `handleDebugToolExecutionInputs` (lines 34-58). -/
def handleDebugToolExecutionInputs (st : DebugState) (executionId : String)
    (toolCallId : Option String) (v : Value) : DebugState :=
  let newData := updateFirstFromEnd (isToolWith toolCallId) (setInputs v) (st.debugData executionId)
  { st with debugData := updateKey st.debugData executionId newData }

/-- `handleDebugToolExecutionFinished` (lines 60-85). -/
def handleDebugToolExecutionFinished (st : DebugState) (executionId : String)
    (toolCallId : Option String) (v : Value) : DebugState :=
  let newData := updateFirstFromEnd (isToolWith toolCallId) (setComplete v) (st.debugData executionId)
  { st with debugData := updateKey st.debugData executionId newData }

/-- `handleDebugToolExecutionError` (lines 87-112). -/
def handleDebugToolExecutionError (st : DebugState) (executionId : String)
    (toolCallId : Option String) (v : Value) : DebugState :=
  let newData := updateFirstFromEnd (isToolWith toolCallId) (setErrorStatus v) (st.debugData executionId)
  { st with debugData := updateKey st.debugData executionId newData }

/-- `handleDebugToolLog` (lines 114-139); `v` is the event's `value[0]`. -/
def handleDebugToolLog (st : DebugState) (executionId : String)
    (toolCallId : Option String) (v : Value) : DebugState :=
  let newData := updateFirstFromEnd (isToolWith toolCallId) (appendLog v) (st.debugData executionId)
  { st with debugData := updateKey st.debugData executionId newData }

/-- The mutation of `handleDebugReasoningStep`'s loop body. -/
def appendReasoning (delta : String) : DebugItem → DebugItem
  | DebugItem.reasoning t => DebugItem.reasoning (t ++ delta)
  | it => it

/-- `handleDebugReasoningStep` (lines 141-168): push a fresh empty
`ReasoningItem` and advance `lastReasoningIndex` when the incoming index
exceeds it, then append the delta to the most recent `ReasoningItem`. -/
def handleDebugReasoningStep (st : DebugState) (executionId : String)
    (delta : String) (index : Int) : DebugState :=
  let currentData :=
    if st.lastReasoningIndex < index then st.debugData executionId ++ [DebugItem.reasoning ""]
    else st.debugData executionId
  let lastIndex1 :=
    if st.lastReasoningIndex < index then index else st.lastReasoningIndex
  let newData := updateFirstFromEnd isReasoningItem (appendReasoning delta) currentData
  { debugData := updateKey st.debugData executionId newData,
    lastReasoningIndex := lastIndex1 }

/-- `handleAgentHandoff` (lines 170-182). -/
def handleAgentHandoff (st : DebugState) (executionId : String) (agentName : String) : DebugState :=
  let newData := st.debugData executionId ++ [DebugItem.handoff agentName]
  { st with debugData := updateKey st.debugData executionId newData }

/-- One typed debug event routed to the reducer, carrying its
`meta.executionId`.  Tool events carry the `value` payload (`value[0]` for
`debug_tool_log`). -/
inductive DebugEvent where
  | toolStarted (eid : String) (toolId : Option String) (tcid : Option String)
  | toolInputs (eid : String) (tcid : Option String) (v : Value)
  | toolFinished (eid : String) (tcid : Option String) (v : Value)
  | toolError (eid : String) (tcid : Option String) (v : Value)
  | toolLog (eid : String) (tcid : Option String) (v : Value)
  | reasoningDelta (eid : String) (delta : String) (index : Int)
  | agentHandoff (eid : String) (agentName : String)
deriving DecidableEq, Repr

/-- The execution id of a debug event. -/
def DebugEvent.executionId : DebugEvent → String
  | DebugEvent.toolStarted e _ _ => e
  | DebugEvent.toolInputs e _ _ => e
  | DebugEvent.toolFinished e _ _ => e
  | DebugEvent.toolError e _ _ => e
  | DebugEvent.toolLog e _ _ => e
  | DebugEvent.reasoningDelta e _ _ => e
  | DebugEvent.agentHandoff e _ => e

/-- The `switch` in `handleDebugEvent` (lines 184-210). -/
def handleDebugEvent (st : DebugState) : DebugEvent → DebugState
  | DebugEvent.toolStarted eid tid tcid => handleDebugToolExecutionStarted st eid tid tcid
  | DebugEvent.toolInputs eid tcid v => handleDebugToolExecutionInputs st eid tcid v
  | DebugEvent.toolFinished eid tcid v => handleDebugToolExecutionFinished st eid tcid v
  | DebugEvent.toolError eid tcid v => handleDebugToolExecutionError st eid tcid v
  | DebugEvent.toolLog eid tcid v => handleDebugToolLog st eid tcid v
  | DebugEvent.reasoningDelta eid d i => handleDebugReasoningStep st eid d i
  | DebugEvent.agentHandoff eid n => handleAgentHandoff st eid n

/-! ## Stream consumer transcript updates (`use-agent.ts`) -/

/-- A message object with its allocation identity: `tag` models the object
reference, so `===` is tag equality and every object literal evaluated by the
code gets a fresh tag. -/
structure MsgObj where
  tag : Nat
  role : Role
  content : String
  executionId : Option String
deriving DecidableEq, Repr

/-- The live transcript plus the allocation counter for fresh tags. -/
structure Transcript where
  msgs : List MsgObj
  fresh : Nat
deriving DecidableEq, Repr

/-- Forget the allocation tag. -/
def MsgObj.toMessage (m : MsgObj) : Message :=
  { role := m.role, content := m.content, executionId := m.executionId }

/-- Forget all allocation tags. -/
def stripTags (l : List MsgObj) : List Message :=
  l.map MsgObj.toMessage

/-- The `llm_text_delta` branch of `onmessage` (lines 161-189): append the
payload to the last message when it is agent-role (`[...prev.slice(0,-1),
{...lastMessage, content: lastMessage.content + parsed.data}]`, a fresh
object), else append a fresh agent message tagged with the frame's
execution id. -/
def appendTextDelta (t : Transcript) (data : String) (eid : String) : Transcript :=
  match t.msgs.getLast? with
  | some lastMessage =>
    if lastMessage.role = Role.agent then
      let updatedMessage : MsgObj :=
        { tag := t.fresh, role := lastMessage.role,
          content := lastMessage.content ++ data,
          executionId := lastMessage.executionId }
      { msgs := t.msgs.dropLast ++ [updatedMessage], fresh := t.fresh + 1 }
    else
      let newMessage : MsgObj :=
        { tag := t.fresh, role := Role.agent, content := data, executionId := some eid }
      { msgs := t.msgs ++ [newMessage], fresh := t.fresh + 1 }
  | none =>
      let newMessage : MsgObj :=
        { tag := t.fresh, role := Role.agent, content := data, executionId := some eid }
      { msgs := t.msgs ++ [newMessage], fresh := t.fresh + 1 }

/-- The execution-id update of `onopen` (lines 137-154), transcript part:
when the last message is user-role, replace it by the fresh object
`{...lastMessage, executionId}`. -/
def attachExecutionIdTagged (t : Transcript) (eid : String) : Transcript :=
  match t.msgs.getLast? with
  | some lastMessage =>
    if lastMessage.role = Role.user then
      let updatedMessage : MsgObj :=
        { tag := t.fresh, role := lastMessage.role, content := lastMessage.content,
          executionId := some eid }
      { msgs := t.msgs.dropLast ++ [updatedMessage], fresh := t.fresh + 1 }
    else t
  | none => t

/-- Fold a run of `llm_text_delta` frames sharing execution id `e`. -/
def applyTextDeltas (t : Transcript) (ds : List String) (e : String) : Transcript :=
  ds.foldl (fun acc d => appendTextDelta acc d e) t

/-- One transcript-mutating effect of a `runAgent` attempt. -/
inductive StreamEv where
  | textDelta (data : String) (eid : String)
  | attachExec (eid : String)
deriving DecidableEq, Repr

/-- Apply one stream effect. -/
def applyStreamEv (t : Transcript) : StreamEv → Transcript
  | StreamEv.textDelta d e => appendTextDelta t d e
  | StreamEv.attachExec e => attachExecutionIdTagged t e

/-- Apply the stream effects of one attempt in order. -/
def applyStream (t : Transcript) (evs : List StreamEv) : Transcript :=
  evs.foldl applyStreamEv t

/-- `handleSend` (lines 232-271), transcript part.  `provisionalId` models
`Date.now().toString()`; `evs` are the transcript effects of the `runAgent`
attempt and `fails` whether it threw.  On failure without `skipUserMessage`,
the catch block re-appends `userMessage` unless `prev.some((m) => m ===
userMessage)` finds the original object (tag equality). -/
def handleSend (t : Transcript) (input : String) (skipUserMessage : Bool)
    (provisionalId : String) (evs : List StreamEv) (fails : Bool) : Transcript :=
  let userMessage : MsgObj :=
    { tag := t.fresh, role := Role.user, content := input, executionId := some provisionalId }
  let t1 :=
    if skipUserMessage then t
    else { msgs := t.msgs ++ [userMessage], fresh := t.fresh + 1 }
  let t2 := applyStream t1 evs
  if fails then
    if skipUserMessage then t2
    else if t2.msgs.any (fun m => m.tag == userMessage.tag) then t2
    else { msgs := t2.msgs ++ [userMessage], fresh := t2.fresh }
  else t2

/-- The execution-id handling of `onopen` (lines 134-155) in the untagged
message model, together with its immediate synchronization: when the header
is present and the most recent message is user-role, replace it by a copy
carrying the header's execution id and call `syncSessionRef.current` on the
updated transcript. -/
def onopenExecutionId (agentId : String) (now : Nat) (header : Option String)
    (msgs : List Message) (st : RepoState) : List Message × RepoState :=
  match header with
  | none => (msgs, st)
  | some executionId =>
    match msgs.getLast? with
    | some lastMessage =>
      if lastMessage.role = Role.user then
        let updatedMessages := msgs.dropLast ++ [{ lastMessage with executionId := some executionId }]
        (updatedMessages, syncSession agentId now updatedMessages st)
      else (msgs, st)
    | none => (msgs, st)

/-! ## Synced storage atom (`atomWithSyncedLocalStorage.ts`) -/

/-- A value or the jotai `RESET` sentinel. -/
inductive ValOrReset (V : Type) where
  | val (v : V)
  | reset

/-- The `SetStateAction` accepted by the derived atom's write: a literal or a
function of the previous value. -/
inductive UpdateArg (V : Type) where
  | lit (x : ValOrReset V)
  | fn (f : V → ValOrReset V)

/-- The observable state of one synced atom: the in-memory base atom value
and the value persisted under the atom's key (`none` = key absent). -/
structure AtomState (V : Type) where
  mem : V
  stored : Option V

/-- The outcome of one write: the resulting state and whether an exception
escaped to the caller. -/
structure WriteOutcome (V : Type) where
  state : AtomState V
  threw : Bool

/-- The write function of `atomWithSyncedStorage`'s derived atom (lines
27-48).  `fits v = false` models `storage.setItem` throwing a quota error for
`v`; `isFalsy` models JavaScript falsiness in
`overrideValue?.(get, set, nextValue) || nextValue`; `override = none` models
an absent `overrideValue`.  The retry inside the `catch` block is not itself
guarded, so a second quota failure escapes (`threw = true`) while the base
atom keeps the new value. -/
def writeSynced {V : Type} (fits : V → Bool) (isFalsy : V → Bool)
    (override : Option (V → V)) (initialValue : V)
    (st : AtomState V) (update : UpdateArg V) : WriteOutcome V :=
  let nextValue :=
    match update with
    | UpdateArg.lit x => x
    | UpdateArg.fn f => f st.mem
  match nextValue with
  | ValOrReset.reset =>
    let stReset : AtomState V := { mem := initialValue, stored := none }
    { state := stReset, threw := false }
  | ValOrReset.val v =>
    let st1 : AtomState V := { st with mem := v }
    if fits v then
      let stOk : AtomState V := { st1 with stored := some v }
      { state := stOk, threw := false }
    else
      let overridenValue :=
        match override with
        | some f => if isFalsy (f v) then v else f v
        | none => v
      if fits overridenValue then
        let stRetry : AtomState V := { st1 with stored := some overridenValue }
        { state := stRetry, threw := false }
      else { state := st1, threw := true }

/-! ## Lemmas about the backward-scan update -/

theorem updateKey_same (g : String → List DebugItem) (k : String) (v : List DebugItem) :
    updateKey g k v k = v := by
  simp [updateKey]

theorem updateKey_ne (g : String → List DebugItem) (k : String) (v : List DebugItem)
    (a : String) (h : a ≠ k) : updateKey g k v a = g a := by
  simp [updateKey, h]

theorem updateKey_self (g : String → List DebugItem) (k : String) :
    updateKey g k (g k) = g := by
  funext a
  by_cases h : a = k
  · subst h; simp [updateKey]
  · simp [updateKey, h]

theorem updateFirst_of_forall_not (p : DebugItem → Bool) (f : DebugItem → DebugItem)
    (l : List DebugItem) (h : ∀ x ∈ l, p x = false) :
    updateFirst p f l = l := by
  induction l with
  | nil => rfl
  | cons x xs ih =>
    have hx : p x = false := h x (List.mem_cons_self x xs)
    simp [updateFirst, hx, ih (fun y hy => h y (List.mem_cons_of_mem x hy))]

theorem updateFirst_append_of_forall_not (p : DebugItem → Bool) (f : DebugItem → DebugItem)
    (l₁ l₂ : List DebugItem) (h : ∀ x ∈ l₁, p x = false) :
    updateFirst p f (l₁ ++ l₂) = l₁ ++ updateFirst p f l₂ := by
  induction l₁ with
  | nil => simp
  | cons x xs ih =>
    have hx : p x = false := h x (List.mem_cons_self x xs)
    simp [updateFirst, hx, ih (fun y hy => h y (List.mem_cons_of_mem x hy))]

theorem updateFirst_cons_of_true (p : DebugItem → Bool) (f : DebugItem → DebugItem)
    (x : DebugItem) (l : List DebugItem) (hx : p x = true) :
    updateFirst p f (x :: l) = f x :: l := by
  simp [updateFirst, hx]

theorem updateFirstFromEnd_of_forall_not (p : DebugItem → Bool) (f : DebugItem → DebugItem)
    (l : List DebugItem) (h : ∀ x ∈ l, p x = false) :
    updateFirstFromEnd p f l = l := by
  unfold updateFirstFromEnd
  rw [updateFirst_of_forall_not p f l.reverse (fun x hx => h x (List.mem_reverse.mp hx)),
    List.reverse_reverse]

theorem updateFirstFromEnd_split (p : DebugItem → Bool) (f : DebugItem → DebugItem)
    (l₁ : List DebugItem) (x : DebugItem) (l₂ : List DebugItem)
    (hx : p x = true) (h₂ : ∀ y ∈ l₂, p y = false) :
    updateFirstFromEnd p f (l₁ ++ x :: l₂) = l₁ ++ f x :: l₂ := by
  unfold updateFirstFromEnd
  rw [List.reverse_append, List.reverse_cons, List.append_assoc,
    updateFirst_append_of_forall_not p f l₂.reverse _
      (fun y hy => h₂ y (List.mem_reverse.mp hy)),
    List.singleton_append, updateFirst_cons_of_true p f x _ hx]
  simp

theorem updateFirstFromEnd_concat (p : DebugItem → Bool) (f : DebugItem → DebugItem)
    (l : List DebugItem) (x : DebugItem) (hx : p x = true) :
    updateFirstFromEnd p f (l ++ [x]) = l ++ [f x] := by
  simpa using updateFirstFromEnd_split p f l x [] hx (by simp)

theorem filter_false_eq_nil (p : DebugItem → Bool) (l : List DebugItem)
    (h : ∀ x ∈ l, p x = false) : l.filter p = [] := by
  induction l with
  | nil => rfl
  | cons x xs ih =>
    have hx : p x = false := h x (List.mem_cons_self x xs)
    simp [List.filter_cons, hx, ih (fun y hy => h y (List.mem_cons_of_mem x hy))]

/-- Number of `ToolExecutionItem`s in a trace whose `toolCallId` matches. -/
def countToolWith (tcid : Option String) (l : List DebugItem) : Nat :=
  (l.filter (isToolWith tcid)).length

theorem reasoning_step_push (st : DebugState) (eid d : String) (i : Int)
    (hi : st.lastReasoningIndex < i) :
    (handleDebugReasoningStep st eid d i).debugData eid
      = st.debugData eid ++ [DebugItem.reasoning d]
    ∧ (handleDebugReasoningStep st eid d i).lastReasoningIndex = i := by
  unfold handleDebugReasoningStep
  simp only [if_pos hi]
  rw [updateFirstFromEnd_concat _ _ _ _ (by rfl : isReasoningItem (DebugItem.reasoning "") = true)]
  constructor
  · rw [updateKey_same]
    simp [appendReasoning]
  · trivial

theorem reasoning_step_no_push (st : DebugState) (eid d : String) (i : Int)
    (hi : ¬ st.lastReasoningIndex < i) (l : List DebugItem) (r : String)
    (hl : st.debugData eid = l ++ [DebugItem.reasoning r]) :
    (handleDebugReasoningStep st eid d i).debugData eid
      = l ++ [DebugItem.reasoning (r ++ d)]
    ∧ (handleDebugReasoningStep st eid d i).lastReasoningIndex = st.lastReasoningIndex := by
  unfold handleDebugReasoningStep
  simp only [if_neg hi]
  rw [hl, updateFirstFromEnd_concat _ _ _ _ (by rfl : isReasoningItem (DebugItem.reasoning r) = true)]
  constructor
  · rw [updateKey_same]
    simp [appendReasoning]
  · trivial

/-- Claim C3: a `debug_tool_execution_started` event immediately followed by a
`debug_tool_execution_finished` event with a matching `toolCallId` (fresh in
the execution's trace) yields exactly one matching `ToolExecutionItem`, with
status `complete` and the finished event's value as output; update events
locate their target by scanning the execution's trace backward for the most
recent matching `ToolExecutionItem` and mutate only that item; an update
event with no matching item leaves the state unchanged (no item created). -/
theorem C3_tool_execution_lifecycle :
    (∀ (st : DebugState) (eid : String) (toolId tcid : Option String) (v : Value),
      (∀ x ∈ st.debugData eid, isToolWith tcid x = false) →
      (handleDebugToolExecutionFinished
          (handleDebugToolExecutionStarted st eid toolId tcid) eid tcid v).debugData eid
        = st.debugData eid
            ++ [DebugItem.tool (jsOrString toolId "unknown") tcid ToolStatus.complete none (some v) none]
      ∧ countToolWith tcid
          ((handleDebugToolExecutionFinished
              (handleDebugToolExecutionStarted st eid toolId tcid) eid tcid v).debugData eid) = 1)
    ∧ (∀ (st : DebugState) (eid : String) (tcid : Option String) (v : Value)
        (l₁ : List DebugItem) (x : DebugItem) (l₂ : List DebugItem),
        st.debugData eid = l₁ ++ x :: l₂ → isToolWith tcid x = true →
        (∀ y ∈ l₂, isToolWith tcid y = false) →
        (handleDebugToolExecutionFinished st eid tcid v).debugData eid
          = l₁ ++ setComplete v x :: l₂)
    ∧ (∀ (st : DebugState) (eid : String) (tcid : Option String) (v : Value),
        (∀ x ∈ st.debugData eid, isToolWith tcid x = false) →
        handleDebugToolExecutionFinished st eid tcid v = st
        ∧ handleDebugToolExecutionInputs st eid tcid v = st
        ∧ handleDebugToolExecutionError st eid tcid v = st
        ∧ handleDebugToolLog st eid tcid v = st) := by
  refine ⟨?_, ?_, ?_⟩
  · intro st eid toolId tcid v h
    have hstart : (handleDebugToolExecutionStarted st eid toolId tcid).debugData eid
        = st.debugData eid
          ++ [DebugItem.tool (jsOrString toolId "unknown") tcid ToolStatus.progress none none none] := by
      simp only [handleDebugToolExecutionStarted]
      rw [updateKey_same]
    have hmatch : isToolWith tcid
        (DebugItem.tool (jsOrString toolId "unknown") tcid ToolStatus.progress none none none)
        = true := by
      simp [isToolWith]
    have hfin : (handleDebugToolExecutionFinished
        (handleDebugToolExecutionStarted st eid toolId tcid) eid tcid v).debugData eid
        = st.debugData eid
          ++ [DebugItem.tool (jsOrString toolId "unknown") tcid ToolStatus.complete none (some v) none] := by
      simp only [handleDebugToolExecutionFinished]
      rw [updateKey_same, hstart, updateFirstFromEnd_concat _ _ _ _ hmatch]
      rfl
    refine ⟨hfin, ?_⟩
    rw [hfin]
    unfold countToolWith
    rw [List.filter_append, filter_false_eq_nil _ _ h]
    simp [isToolWith]
  · intro st eid tcid v l₁ x l₂ hsplit hx h₂
    simp only [handleDebugToolExecutionFinished]
    rw [updateKey_same, hsplit, updateFirstFromEnd_split _ _ _ _ _ hx h₂]
  · intro st eid tcid v h
    refine ⟨?_, ?_, ?_, ?_⟩
    · simp only [handleDebugToolExecutionFinished]
      rw [updateFirstFromEnd_of_forall_not _ _ _ h, updateKey_self]
    · simp only [handleDebugToolExecutionInputs]
      rw [updateFirstFromEnd_of_forall_not _ _ _ h, updateKey_self]
    · simp only [handleDebugToolExecutionError]
      rw [updateFirstFromEnd_of_forall_not _ _ _ h, updateKey_self]
    · simp only [handleDebugToolLog]
      rw [updateFirstFromEnd_of_forall_not _ _ _ h, updateKey_self]

/-- Empty debug-handler state: empty trace map, `lastReasoningIndex = -1`. -/
def dbgSt0 : DebugState := { debugData := fun _ => [], lastReasoningIndex := -1 }

theorem C3_tool_execution_lifecycle_witness :
    (handleDebugToolExecutionFinished
        (handleDebugToolExecutionStarted dbgSt0 "e1" (some "t") (some "c1")) "e1" (some "c1") "out").debugData "e1"
      = [DebugItem.tool "t" (some "c1") ToolStatus.complete none (some "out") none]
    ∧ countToolWith (some "c1")
        ((handleDebugToolExecutionFinished
            (handleDebugToolExecutionStarted dbgSt0 "e1" (some "t") (some "c1")) "e1" (some "c1") "out").debugData "e1") = 1 := by
  have h := C3_tool_execution_lifecycle.1 dbgSt0 "e1" (some "t") (some "c1") "out" (by decide)
  simpa [dbgSt0, jsOrString] using h

/-- Claim C4: a reasoning delta whose index strictly exceeds the handler's
last seen reasoning index appends a new `ReasoningItem` (advancing the
cursor) and receives the delta's text; a second delta with the same index is
concatenated into that same single `ReasoningItem`. -/
theorem C4_reasoning_delta_indexing (st : DebugState) (eid d1 d2 : String) (i : Int)
    (h : st.lastReasoningIndex < i) :
    (handleDebugReasoningStep st eid d1 i).debugData eid
      = st.debugData eid ++ [DebugItem.reasoning d1]
    ∧ (handleDebugReasoningStep st eid d1 i).lastReasoningIndex = i
    ∧ (handleDebugReasoningStep (handleDebugReasoningStep st eid d1 i) eid d2 i).debugData eid
      = st.debugData eid ++ [DebugItem.reasoning (d1 ++ d2)]
    ∧ (handleDebugReasoningStep (handleDebugReasoningStep st eid d1 i) eid d2 i).lastReasoningIndex = i := by
  obtain ⟨e1, e2⟩ := reasoning_step_push st eid d1 i h
  have hnl : ¬ (handleDebugReasoningStep st eid d1 i).lastReasoningIndex < i := by
    rw [e2]; exact lt_irrefl i
  obtain ⟨e3, e4⟩ := reasoning_step_no_push (handleDebugReasoningStep st eid d1 i) eid d2 i hnl
    (st.debugData eid) d1 e1
  exact ⟨e1, e2, e3, by rw [e4, e2]⟩

theorem C4_reasoning_delta_indexing_witness :
    (handleDebugReasoningStep dbgSt0 "e1" "th" 0).debugData "e1"
      = [DebugItem.reasoning "th"]
    ∧ (handleDebugReasoningStep dbgSt0 "e1" "th" 0).lastReasoningIndex = 0
    ∧ (handleDebugReasoningStep (handleDebugReasoningStep dbgSt0 "e1" "th" 0) "e1" "ink" 0).debugData "e1"
      = [DebugItem.reasoning "think"]
    ∧ (handleDebugReasoningStep (handleDebugReasoningStep dbgSt0 "e1" "th" 0) "e1" "ink" 0).lastReasoningIndex = 0 := by
  have h := C4_reasoning_delta_indexing dbgSt0 "e1" "th" "ink" 0 (by decide)
  simpa [dbgSt0] using h

/-- Claim C10: a reasoning delta whose index does not exceed the cursor, when
the execution's trace contains no `ReasoningItem`, leaves the handler state
unchanged: no item is created and the delta's text is discarded. -/
theorem C10_stale_reasoning_delta_dropped (st : DebugState) (eid d : String) (i : Int)
    (h1 : ¬ st.lastReasoningIndex < i)
    (h2 : ∀ x ∈ st.debugData eid, isReasoningItem x = false) :
    handleDebugReasoningStep st eid d i = st := by
  unfold handleDebugReasoningStep
  simp only [if_neg h1]
  rw [updateFirstFromEnd_of_forall_not _ _ _ h2, updateKey_self]

/-- A handler state whose cursor has already advanced past index 2 and whose
trace for execution `"e1"` holds no `ReasoningItem`. -/
def dbgStStale : DebugState :=
  { debugData := fun e =>
      if e = "e1" then [DebugItem.tool "t" (some "c1") ToolStatus.progress none none none] else [],
    lastReasoningIndex := 3 }

theorem C10_stale_reasoning_delta_dropped_witness :
    handleDebugReasoningStep dbgStStale "e1" "dropped" 2 = dbgStStale :=
  C10_stale_reasoning_delta_dropped dbgStStale "e1" "dropped" 2 (by decide) (by decide)

/-! ## Lemmas about the session map -/

theorem objLookup_objSet_self (m : SessionMap) (k : String) (v : Session) :
    objLookup (objSet m k v) k = some v := by
  induction m with
  | nil => simp [objSet, objLookup]
  | cons kv rest ih =>
    by_cases h : kv.1 = k
    · simp [objSet, h, objLookup]
    · simpa [objSet, h, objLookup, List.find?_cons] using ih

theorem objLookup_objSet_ne (m : SessionMap) (k : String) (v : Session)
    (k2 : String) (h : k2 ≠ k) :
    objLookup (objSet m k v) k2 = objLookup m k2 := by
  induction m with
  | nil => simp [objSet, objLookup, List.find?_cons, Ne.symm h]
  | cons kv rest ih =>
    by_cases hk : kv.1 = k
    · subst hk
      simp [objSet, objLookup, List.find?_cons, Ne.symm h]
    · by_cases hk2 : kv.1 = k2
      · simp [objSet, hk, objLookup, List.find?_cons, hk2, h]
      · simpa [objSet, hk, objLookup, List.find?_cons, hk2] using ih

theorem objLookup_objDelete_self (m : SessionMap) (k : String) :
    objLookup (objDelete m k) k = none := by
  induction m with
  | nil => rfl
  | cons kv rest ih =>
    by_cases h : kv.1 = k
    · simp only [objDelete, List.filter_cons] at ih ⊢
      simp [h, ih]
    · simp only [objDelete, List.filter_cons] at ih ⊢
      simp [h, objLookup, List.find?_cons, ih]

theorem objLookup_objDelete_ne (m : SessionMap) (k : String) (k2 : String) (h : k2 ≠ k) :
    objLookup (objDelete m k) k2 = objLookup m k2 := by
  induction m with
  | nil => rfl
  | cons kv rest ih =>
    by_cases hk : kv.1 = k
    · subst hk
      simpa [objDelete, List.filter_cons, objLookup, List.find?_cons, Ne.symm h] using ih
    · by_cases hk2 : kv.1 = k2
      · simp [objDelete, List.filter_cons, hk, objLookup, List.find?_cons, hk2, h]
      · simpa [objDelete, List.filter_cons, hk, objLookup, List.find?_cons, hk2] using ih

theorem objValues_objDelete_of_wf (m : SessionMap) (sid : String)
    (hwf : ∀ p ∈ m, p.2.id = some p.1) :
    objValues (objDelete m sid) = (objValues m).filter (fun s => s.id != some sid) := by
  induction m with
  | nil => rfl
  | cons kv rest ih =>
    have hkv : kv.2.id = some kv.1 := hwf kv (List.mem_cons_self kv rest)
    have ih2 := ih (fun p hp => hwf p (List.mem_cons_of_mem kv hp))
    by_cases h : kv.1 = sid
    · have hb : (kv.2.id != some sid) = false := by rw [hkv, h]; simp
      have hb1 : (kv.1 != sid) = false := by rw [h]; simp
      simp only [objDelete, objValues, List.map_cons, List.filter_cons, hb, hb1] at ih2 ⊢
      simpa [objDelete, objValues] using ih2
    · have hb : (kv.2.id != some sid) = true := by rw [hkv]; simpa using h
      have hb1 : (kv.1 != sid) = true := by simpa using h
      simp only [objDelete, objValues, List.map_cons, List.filter_cons, hb, hb1] at ih2 ⊢
      simpa [objDelete, objValues] using ih2

theorem head_sortByUpdatedAtDesc_mem (l : List Session) (s : Session)
    (h : (sortByUpdatedAtDesc l).head? = some s) : s ∈ l := by
  have hp : (sortByUpdatedAtDesc l).Perm l := List.mergeSort_perm l _
  have hmem : s ∈ sortByUpdatedAtDesc l := by
    cases hl : sortByUpdatedAtDesc l with
    | nil => rw [hl] at h; exact absurd h (by simp)
    | cons a t =>
      rw [hl] at h
      simp only [List.head?_cons, Option.some.injEq] at h
      subst h
      exact List.mem_cons_self a t
  exact hp.mem_iff.mp hmem

theorem head_sortByUpdatedAtDesc_max (l : List Session) (s : Session)
    (h : (sortByUpdatedAtDesc l).head? = some s) :
    ∀ t ∈ l, t.updatedAt ≤ s.updatedAt := by
  have hs := @List.sorted_mergeSort Session
    (fun a b : Session => decide (b.updatedAt ≤ a.updatedAt))
    (fun a b c hab hbc => by
      simp only [decide_eq_true_eq] at hab hbc ⊢
      exact le_trans hbc hab)
    (fun a b => by
      simp only [Bool.or_eq_true, decide_eq_true_eq]
      exact Nat.le_total b.updatedAt a.updatedAt)
    l
  have hp : (sortByUpdatedAtDesc l).Perm l := List.mergeSort_perm l _
  intro t ht
  have ht2 : t ∈ sortByUpdatedAtDesc l := hp.mem_iff.mpr ht
  have hs2 : List.Pairwise
      (fun a b : Session => (decide (b.updatedAt ≤ a.updatedAt)) = true)
      (sortByUpdatedAtDesc l) := hs
  cases hl : sortByUpdatedAtDesc l with
  | nil => rw [hl] at ht2; exact absurd ht2 (by simp)
  | cons a tail =>
    rw [hl] at h
    simp only [List.head?_cons, Option.some.injEq] at h
    subst h
    rw [hl] at hs2 ht2
    rcases List.mem_cons.mp ht2 with heq | htail
    · subst heq; exact le_refl _
    · have := (List.pairwise_cons.mp hs2).1 t htail
      simpa using this

/-- Claim C5 counterexample input: from an empty repository, switch to the
nonexistent session id `"abc"` (allowed: no validation) and sync once.  The
synced record is created by spreading an absent session, so its `id` field is
`undefined`. -/
def repoSt0 : RepoState :=
  { allSessions := fun _ => [], currentSessionId := some TEMPORARY_SESSION_ID }

def c5Reached : RepoState :=
  applyOps repoSt0 [("a", RepoOp.switchOp (some "abc")), ("a", RepoOp.syncOp 5 [])]

/-- Claim C5 counterexample: deleting `"abc"` (the current session) from
`c5Reached` leaves no sessions in the repository, yet the current session id
becomes `undefined` rather than the temporary sentinel: the re-selection
filters the pre-delete records by their `id` field, which does not match the
record's key here.  The claim as stated requires the sentinel when no
sessions remain. -/
theorem C5_counterexample :
    objValues ((deleteSession "a" "abc" c5Reached).allSessions "a") = []
    ∧ (deleteSession "a" "abc" c5Reached).currentSessionId = none
    ∧ (none : Option String) ≠ some TEMPORARY_SESSION_ID := by
  refine ⟨by rfl, ?_, by simp [TEMPORARY_SESSION_ID]⟩
  have h1 : c5Reached.allSessions "a"
      = [("abc", { id := none, createdAt := none, updatedAt := 5, messages := [], name := none })] := by rfl
  have h2 : c5Reached.currentSessionId = some "abc" := by rfl
  simp only [deleteSession]
  rw [h1, h2]
  simp [objValues, sortByUpdatedAtDesc, List.mergeSort_singleton, TEMPORARY_SESSION_ID,
    objDelete, List.filter_cons]

/-- Claim C5 (amended): for `deleteSession(sessionId)` with a non-falsy,
non-sentinel id, on a repository whose records all carry their storage key as
their `id`: the session is removed; the current session id is never the
deleted id afterward; if the deleted session was not current the current id
is unchanged; if it was current, the new current id is the temporary sentinel
when no sessions remain, and otherwise the id of a remaining session with
maximal `updatedAt`.  The falsy and sentinel ids are no-ops.  (The
well-formedness hypothesis is forced by the counterexample: a record synced
for a never-created session id has an `undefined` id and breaks the
re-selection.) -/
theorem C5_delete_session (agentId sessionId : String) (st : RepoState)
    (h1 : sessionId ≠ "") (h2 : sessionId ≠ TEMPORARY_SESSION_ID)
    (hwf : ∀ p ∈ st.allSessions agentId, p.2.id = some p.1) :
    objLookup ((deleteSession agentId sessionId st).allSessions agentId) sessionId = none
    ∧ (deleteSession agentId sessionId st).currentSessionId ≠ some sessionId
    ∧ (st.currentSessionId ≠ some sessionId →
        (deleteSession agentId sessionId st).currentSessionId = st.currentSessionId)
    ∧ (st.currentSessionId = some sessionId →
        (objValues ((deleteSession agentId sessionId st).allSessions agentId) = [] →
          (deleteSession agentId sessionId st).currentSessionId = some TEMPORARY_SESSION_ID)
        ∧ (objValues ((deleteSession agentId sessionId st).allSessions agentId) ≠ [] →
          ∃ s ∈ objValues ((deleteSession agentId sessionId st).allSessions agentId),
            (deleteSession agentId sessionId st).currentSessionId = s.id
            ∧ ∀ t ∈ objValues ((deleteSession agentId sessionId st).allSessions agentId),
                t.updatedAt ≤ s.updatedAt))
    ∧ (∀ st2 : RepoState, deleteSession agentId "" st2 = st2
        ∧ deleteSession agentId TEMPORARY_SESSION_ID st2 = st2) := by
  have hguard : (sessionId == "" || sessionId == TEMPORARY_SESSION_ID) = false := by
    simp [h1, h2]
  have hnoop : ∀ st2 : RepoState, deleteSession agentId "" st2 = st2
      ∧ deleteSession agentId TEMPORARY_SESSION_ID st2 = st2 := by
    intro st2
    constructor
    · simp [deleteSession]
    · simp [deleteSession]
  have hA : (deleteSession agentId sessionId st).allSessions agentId
      = objDelete (st.allSessions agentId) sessionId := by
    simp [deleteSession, hguard]
  have hrem : objValues (objDelete (st.allSessions agentId) sessionId)
      = (objValues (st.allSessions agentId)).filter (fun s => s.id != some sessionId) :=
    objValues_objDelete_of_wf _ _ hwf
  by_cases hcur : st.currentSessionId = some sessionId
  · have hC : (deleteSession agentId sessionId st).currentSessionId
        = match (sortByUpdatedAtDesc
            ((objValues (st.allSessions agentId)).filter (fun s => s.id != some sessionId))).head? with
          | some mostRecent => mostRecent.id
          | none => some TEMPORARY_SESSION_ID := by
      simp [deleteSession, hguard, hcur]
    refine ⟨?_, ?_, ?_, ?_, hnoop⟩
    · rw [hA]; exact objLookup_objDelete_self _ _
    · rw [hC]
      cases hh : (sortByUpdatedAtDesc
          ((objValues (st.allSessions agentId)).filter (fun s => s.id != some sessionId))).head? with
      | none =>
        simp only []
        intro hEq
        exact h2 (Option.some.inj hEq).symm
      | some s =>
        simp only []
        have hmem := head_sortByUpdatedAtDesc_mem _ _ hh
        have hpred := (List.mem_filter.mp hmem).2
        intro hEq
        rw [hEq] at hpred
        simp at hpred
    · intro hne; exact absurd hcur hne
    · intro _
      constructor
      · intro hempty
        rw [hA, hrem] at hempty
        rw [hC, hempty]
        simp [sortByUpdatedAtDesc]
      · intro hne
        rw [hA, hrem] at hne
        have hsortne : (sortByUpdatedAtDesc
            ((objValues (st.allSessions agentId)).filter (fun s => s.id != some sessionId))) ≠ [] := by
          intro hnil
          have hp : (sortByUpdatedAtDesc
              ((objValues (st.allSessions agentId)).filter (fun s => s.id != some sessionId))).Perm
              ((objValues (st.allSessions agentId)).filter (fun s => s.id != some sessionId)) :=
            List.mergeSort_perm _ _
          rw [hnil] at hp
          exact hne (hp.symm.eq_nil)
        obtain ⟨s, tail, hh⟩ := List.exists_cons_of_ne_nil hsortne
        have hhead : (sortByUpdatedAtDesc
            ((objValues (st.allSessions agentId)).filter (fun s => s.id != some sessionId))).head?
            = some s := by rw [hh]; rfl
        refine ⟨s, ?_, ?_, ?_⟩
        · rw [hA, hrem]
          exact head_sortByUpdatedAtDesc_mem _ _ hhead
        · rw [hC, hhead]
        · intro t ht
          rw [hA, hrem] at ht
          exact head_sortByUpdatedAtDesc_max _ _ hhead t ht
  · have hC : (deleteSession agentId sessionId st).currentSessionId = st.currentSessionId := by
      simp [deleteSession, hguard, hcur]
    refine ⟨?_, ?_, fun _ => hC, fun hEq => absurd hEq hcur, hnoop⟩
    · rw [hA]; exact objLookup_objDelete_self _ _
    · rw [hC]; exact hcur

/-- A well-formed two-session repository with `"s1"` current. -/
def c5WfState : RepoState :=
  { allSessions := fun a =>
      if a = "a" then
        [("s1", { id := some "s1", createdAt := some 1, updatedAt := 10, messages := [], name := some "one" }),
         ("s2", { id := some "s2", createdAt := some 2, updatedAt := 20, messages := [], name := some "two" })]
      else [],
    currentSessionId := some "s1" }

theorem C5_delete_session_witness :
    objLookup ((deleteSession "a" "s1" c5WfState).allSessions "a") "s1" = none
    ∧ (deleteSession "a" "s1" c5WfState).currentSessionId ≠ some "s1" := by
  have h := C5_delete_session "a" "s1" c5WfState (by decide) (by decide) (by decide)
  exact ⟨h.1, h.2.1⟩

/-! ## The temporary sentinel and the persisted map (C6) -/

/-- Whether an operation is a `createSessionFromResponse` whose new session id
is the temporary sentinel. -/
def isCreateTempOp : RepoOp → Bool
  | RepoOp.createOp _ sid _ _ => sid == TEMPORARY_SESSION_ID
  | _ => false

/-- No agent's persisted map has an entry under the temporary sentinel. -/
def noTempEntry (st : RepoState) : Prop :=
  ∀ a, objLookup (st.allSessions a) TEMPORARY_SESSION_ID = none

theorem syncSession_cases (agentId : String) (now : Nat) (msgs : List Message)
    (st : RepoState) :
    syncSession agentId now msgs st = st
    ∨ ∃ cur, st.currentSessionId = some cur ∧ cur ≠ "" ∧ cur ≠ TEMPORARY_SESSION_ID
        ∧ (syncSession agentId now msgs st).currentSessionId = st.currentSessionId
        ∧ ∀ a, (syncSession agentId now msgs st).allSessions a
            = (if a = agentId
              then objSet (st.allSessions agentId) cur
                (match objLookup (st.allSessions agentId) cur with
                  | some s => { s with messages := msgs, updatedAt := now }
                  | none => { id := none, createdAt := none, updatedAt := now,
                              messages := msgs, name := none })
              else st.allSessions a) := by
  by_cases hg : isFalsyOrTemp st.currentSessionId = true
  · left
    simp [syncSession, hg]
  · right
    cases hcur : st.currentSessionId with
    | none => exact absurd (by simp [isFalsyOrTemp, hcur]) hg
    | some cur =>
      have hcu : isFalsyOrTemp (some cur) = false := by
        rw [← hcur]; exact Bool.not_eq_true _ ▸ (Bool.eq_false_iff.mpr hg)
      have hc1 : cur ≠ "" := by
        intro hEq; rw [hEq] at hcu; simp [isFalsyOrTemp] at hcu
      have hc2 : cur ≠ TEMPORARY_SESSION_ID := by
        intro hEq; rw [hEq] at hcu; simp [isFalsyOrTemp] at hcu
      refine ⟨cur, rfl, hc1, hc2, ?_, ?_⟩
      · simp [syncSession, hcur, hcu]
      · intro a
        simp [syncSession, hcur, hcu]

theorem applyOp_preserves_noTemp (st : RepoState) (p : String × RepoOp)
    (hop : isCreateTempOp p.2 = false) (h : noTempEntry st) :
    noTempEntry (applyOp st p) := by
  obtain ⟨agentId, op⟩ := p
  cases op with
  | syncOp now msgs =>
    intro a
    rcases syncSession_cases agentId now msgs st with heq | ⟨cur, _, _, hc2, _, hall⟩
    · rw [show applyOp st (agentId, RepoOp.syncOp now msgs) = syncSession agentId now msgs st from rfl,
        heq]
      exact h a
    · show objLookup ((syncSession agentId now msgs st).allSessions a) TEMPORARY_SESSION_ID = none
      rw [hall a]
      by_cases ha : a = agentId
      · rw [if_pos ha, objLookup_objSet_ne _ _ _ _ (Ne.symm hc2)]
        exact h agentId
      · rw [if_neg ha]; exact h a
  | switchOp sid =>
    intro a
    show objLookup ((switchSession sid st).allSessions a) TEMPORARY_SESSION_ID = none
    simp only [switchSession]
    exact h a
  | deleteOp sid =>
    intro a
    show objLookup ((deleteSession agentId sid st).allSessions a) TEMPORARY_SESSION_ID = none
    by_cases hg : (sid == "" || sid == TEMPORARY_SESSION_ID) = true
    · simp only [deleteSession, if_pos hg]
      exact h a
    · have hg2 : (sid == "" || sid == TEMPORARY_SESSION_ID) = false := Bool.eq_false_iff.mpr hg
      have hsid : sid ≠ TEMPORARY_SESSION_ID := by
        intro hEq
        rw [hEq] at hg2
        simp at hg2
      simp only [deleteSession, hg2, Bool.false_eq_true, if_false]
      by_cases ha : a = agentId
      · subst ha
        rw [if_pos rfl, objLookup_objDelete_ne _ _ _ (Ne.symm hsid)]
        exact h a
      · simp only [if_neg ha]
        exact h a
  | createOp now sid name msgs =>
    intro a
    have hsid : sid ≠ TEMPORARY_SESSION_ID := by
      intro hEq
      rw [hEq] at hop
      simp [isCreateTempOp] at hop
    show objLookup ((createSessionFromResponse agentId now sid name msgs st).allSessions a)
        TEMPORARY_SESSION_ID = none
    simp only [createSessionFromResponse]
    by_cases ha : a = agentId
    · subst ha
      rw [if_pos rfl, objLookup_objSet_ne _ _ _ _ (Ne.symm hsid)]
      exact h a
    · simp only [if_neg ha]
      exact h a

/-- Claim C6 counterexample: `createSessionFromResponse` applies no guard to
the new session id, so a single repository operation whose server-assigned id
is the temporary sentinel persists an entry under the sentinel, starting from
an empty repository.  The claim as stated says the persisted session map
never contains such an entry for any sequence of repository operations. -/
theorem C6_counterexample :
    objLookup ((applyOps repoSt0
        [("a", RepoOp.createOp 0 TEMPORARY_SESSION_ID DEFAULT_SESSION_NAME [])]).allSessions "a")
        TEMPORARY_SESSION_ID
      = some { id := some TEMPORARY_SESSION_ID, createdAt := some 0, updatedAt := 0,
               messages := [], name := some DEFAULT_SESSION_NAME } := by
  rfl

/-- Claim C6 (amended): `switchSession()` with no argument always sets the
current session id to the temporary sentinel; `sync` is a no-op whenever the
current session id is the sentinel or falsy; and for every sequence of
repository operations in which `createSessionFromResponse` is never invoked
with the sentinel as the new session id, a persisted session map with no
sentinel entry never acquires one.  (The restriction on
`createSessionFromResponse` is forced by the counterexample.) -/
theorem C6_temporary_never_persisted (st : RepoState) (ops : List (String × RepoOp))
    (hops : ∀ p ∈ ops, isCreateTempOp p.2 = false)
    (hinit : noTempEntry st) :
    noTempEntry (applyOps st ops)
    ∧ (∀ st2 : RepoState, (switchSession none st2).currentSessionId = some TEMPORARY_SESSION_ID)
    ∧ (∀ (agentId : String) (now : Nat) (msgs : List Message) (st3 : RepoState),
        isFalsyOrTemp st3.currentSessionId = true → syncSession agentId now msgs st3 = st3) := by
  refine ⟨?_, ?_, ?_⟩
  · induction ops generalizing st with
    | nil => exact hinit
    | cons p rest ih =>
      show noTempEntry (applyOps (applyOp st p) rest)
      exact ih (applyOp st p)
        (fun q hq => hops q (List.mem_cons_of_mem p hq))
        (applyOp_preserves_noTemp st p (hops p (List.mem_cons_self p rest)) hinit)
  · intro st2
    simp [switchSession]
  · intro agentId now msgs st3 hg
    simp [syncSession, hg]

def c6Ops : List (String × RepoOp) :=
  [("a", RepoOp.createOp 1 "s1" "New Chat" []),
   ("a", RepoOp.switchOp (some "s1")),
   ("a", RepoOp.syncOp 2 []),
   ("b", RepoOp.deleteOp "s1"),
   ("a", RepoOp.switchOp none)]

theorem C6_temporary_never_persisted_witness :
    objLookup ((applyOps repoSt0 c6Ops).allSessions "a") TEMPORARY_SESSION_ID = none :=
  (C6_temporary_never_persisted repoSt0 c6Ops (by decide) (fun _ => rfl)).1 "a"

/-! ## Frame effects (C9) -/

theorem switchSession_allSessions (sid : Option String) (st : RepoState) :
    (switchSession sid st).allSessions = st.allSessions := rfl

/-- Claim C9: every session-repository operation for one agent id leaves the
session map entries of every other agent id unchanged, and every debug event
processed by the trace reducer leaves the traces of every execution id other
than the event's execution id unchanged. -/
theorem C9_frame_effects (agentId a2 : String) (op : RepoOp) (st : RepoState)
    (hA : a2 ≠ agentId)
    (dst : DebugState) (ev : DebugEvent) (e2 : String) (hE : e2 ≠ ev.executionId) :
    (applyOp st (agentId, op)).allSessions a2 = st.allSessions a2
    ∧ (handleDebugEvent dst ev).debugData e2 = dst.debugData e2 := by
  constructor
  · cases op with
    | syncOp now msgs =>
      rcases syncSession_cases agentId now msgs st with heq | ⟨cur, _, _, _, _, hall⟩
      · show (syncSession agentId now msgs st).allSessions a2 = st.allSessions a2
        rw [heq]
      · show (syncSession agentId now msgs st).allSessions a2 = st.allSessions a2
        rw [hall a2, if_neg hA]
    | switchOp sid =>
      show (switchSession sid st).allSessions a2 = st.allSessions a2
      rw [switchSession_allSessions]
    | deleteOp sid =>
      show (deleteSession agentId sid st).allSessions a2 = st.allSessions a2
      by_cases hg : (sid == "" || sid == TEMPORARY_SESSION_ID) = true
      · simp only [deleteSession, if_pos hg]
      · have hg2 : (sid == "" || sid == TEMPORARY_SESSION_ID) = false := Bool.eq_false_iff.mpr hg
        simp only [deleteSession, hg2, Bool.false_eq_true, if_false]
        simp only [if_neg hA]
    | createOp now sid name msgs =>
      show (createSessionFromResponse agentId now sid name msgs st).allSessions a2
          = st.allSessions a2
      simp only [createSessionFromResponse]
      simp only [if_neg hA]
  · cases ev with
    | toolStarted eid tid tcid =>
      have h2 : e2 ≠ eid := hE
      simp [handleDebugEvent, handleDebugToolExecutionStarted, updateKey, h2]
    | toolInputs eid tcid v =>
      have h2 : e2 ≠ eid := hE
      simp [handleDebugEvent, handleDebugToolExecutionInputs, updateKey, h2]
    | toolFinished eid tcid v =>
      have h2 : e2 ≠ eid := hE
      simp [handleDebugEvent, handleDebugToolExecutionFinished, updateKey, h2]
    | toolError eid tcid v =>
      have h2 : e2 ≠ eid := hE
      simp [handleDebugEvent, handleDebugToolExecutionError, updateKey, h2]
    | toolLog eid tcid v =>
      have h2 : e2 ≠ eid := hE
      simp [handleDebugEvent, handleDebugToolLog, updateKey, h2]
    | reasoningDelta eid d i =>
      have h2 : e2 ≠ eid := hE
      simp [handleDebugEvent, handleDebugReasoningStep, updateKey, h2]
    | agentHandoff eid n =>
      have h2 : e2 ≠ eid := hE
      simp [handleDebugEvent, handleAgentHandoff, updateKey, h2]

theorem C9_frame_effects_witness :
    (applyOp c5WfState ("a", RepoOp.deleteOp "s1")).allSessions "b"
      = c5WfState.allSessions "b"
    ∧ (handleDebugEvent dbgStStale
        (DebugEvent.toolFinished "e1" (some "c1") "out")).debugData "e2"
      = dbgStStale.debugData "e2" :=
  C9_frame_effects "a" "b" (RepoOp.deleteOp "s1") c5WfState (by decide)
    dbgStStale (DebugEvent.toolFinished "e1" (some "c1") "out") "e2" (by decide)

/-! ## Text delta runs (C1) -/

/-- Arrival-order concatenation of delta payload strings. -/
def concatDeltas (l : List String) : String :=
  l.foldr (fun a b => a ++ b) ""

/-- Number of agent-role messages in a transcript. -/
def countAgentRole (l : List Message) : Nat :=
  (l.filter (fun m => m.role == Role.agent)).length

theorem applyTextDeltas_agent_last (ds : List String) (e : String) (M : List MsgObj)
    (m : MsgObj) (hm : m.role = Role.agent) (fr : Nat) :
    stripTags ((applyTextDeltas { msgs := M ++ [m], fresh := fr } ds e).msgs)
      = stripTags M ++ [{ role := Role.agent, content := m.content ++ concatDeltas ds, executionId := m.executionId }] := by
  induction ds generalizing M m fr with
  | nil =>
    simp [applyTextDeltas, stripTags, MsgObj.toMessage, concatDeltas, hm]
  | cons d rest ih =>
    have hstep : appendTextDelta { msgs := M ++ [m], fresh := fr } d e
        = { msgs := M ++ [{ tag := fr, role := m.role, content := m.content ++ d, executionId := m.executionId }], fresh := fr + 1 } := by
      simp [appendTextDelta, List.getLast?_concat, hm, List.dropLast_concat]
    have hsplit : applyTextDeltas { msgs := M ++ [m], fresh := fr } (d :: rest) e
        = applyTextDeltas (appendTextDelta { msgs := M ++ [m], fresh := fr } d e) rest e := rfl
    rw [hsplit, hstep,
      ih M { tag := fr, role := m.role, content := m.content ++ d, executionId := m.executionId } hm (fr + 1)]
    have hc : concatDeltas (d :: rest) = d ++ concatDeltas rest := rfl
    rw [hc, String.append_assoc]

/-- A transcript already ending in an agent message from an earlier
execution, as after a completed reply. -/
def c1AgentEnd : Transcript :=
  { msgs := [{ tag := 0, role := Role.agent, content := "X", executionId := some "e1" }],
    fresh := 1 }

/-- Claim C1 counterexample: the `llm_text_delta` branch checks only that the
last message is agent-role, not its execution id, so a run of deltas for a
new execution arriving while the transcript already ends in an agent message
(reachable, e.g. a `skipUserMessage` send after a completed reply) is merged
into that prior message.  Here the run `["Hello", " world"]` of execution
`"e2"`, with no non-agent message appended in between, leaves a single agent
message with content `"XHello world"` — no agent message's content equals the
run's concatenation `"Hello world"`, so the transcript does not contain
exactly one agent message equal to it, refuting the claim as stated. -/
theorem C1_counterexample :
    stripTags ((applyTextDeltas c1AgentEnd ["Hello", " world"] "e2").msgs)
      = [{ role := Role.agent, content := "XHello world", executionId := some "e1" }]
    ∧ concatDeltas ["Hello", " world"] = "Hello world"
    ∧ ∀ m ∈ stripTags ((applyTextDeltas c1AgentEnd ["Hello", " world"] "e2").msgs),
        m.content ≠ "Hello world" := by
  refine ⟨rfl, rfl, by decide⟩

/-- Claim C1 (amended): a run of `llm_text_delta` frames sharing one
execution id, with no non-agent message appended in between, appends exactly
one agent-role message whose content is the arrival-order concatenation of
the deltas' payloads, tagged with the run's execution id and leaving all
earlier messages unchanged — provided the transcript does not already end in
an agent-role message when the run begins; when it does, the deltas are
appended to that existing message instead (see the counterexample). -/
theorem C1_text_delta_run (t : Transcript) (d : String) (ds : List String) (e : String)
    (h : Option.all (fun m => !(m.role == Role.agent)) t.msgs.getLast? = true) :
    stripTags ((applyTextDeltas t (d :: ds) e).msgs)
      = stripTags t.msgs ++ [{ role := Role.agent, content := concatDeltas (d :: ds), executionId := some e }]
    ∧ countAgentRole (stripTags ((applyTextDeltas t (d :: ds) e).msgs))
      = countAgentRole (stripTags t.msgs) + 1 := by
  have hfirst : appendTextDelta t d e
      = { msgs := t.msgs ++ [{ tag := t.fresh, role := Role.agent, content := d, executionId := some e }], fresh := t.fresh + 1 } := by
    cases hl : t.msgs.getLast? with
    | none => simp [appendTextDelta, hl]
    | some lastMessage =>
      rw [hl] at h
      have hrole : ¬ lastMessage.role = Role.agent := by
        simpa [Option.all] using h
      simp [appendTextDelta, hl, hrole]
  have hsplit : applyTextDeltas t (d :: ds) e
      = applyTextDeltas (appendTextDelta t d e) ds e := rfl
  have hmain := applyTextDeltas_agent_last ds e t.msgs
    { tag := t.fresh, role := Role.agent, content := d, executionId := some e } rfl (t.fresh + 1)
  have hfinal : stripTags ((applyTextDeltas t (d :: ds) e).msgs)
      = stripTags t.msgs ++ [{ role := Role.agent, content := concatDeltas (d :: ds), executionId := some e }] := by
    rw [hsplit, hfirst]
    exact hmain
  refine ⟨hfinal, ?_⟩
  rw [hfinal]
  simp [countAgentRole, List.filter_append]

/-- A transcript ending in a user message, as after `handleSend` appended one. -/
def c1Start : Transcript :=
  { msgs := [{ tag := 0, role := Role.user, content := "hello", executionId := some "exec_1" }],
    fresh := 1 }

theorem C1_text_delta_run_witness :
    stripTags ((applyTextDeltas c1Start ["Hi ", "there"] "exec_1").msgs)
      = [{ role := Role.user, content := "hello", executionId := some "exec_1" },
         { role := Role.agent, content := "Hi there", executionId := some "exec_1" }] := by
  rw [(C1_text_delta_run c1Start "Hi " ["there"] "exec_1" (by decide)).1]
  rfl

/-! ## handleSend and the user message (C2) -/

/-- Number of user-role messages carrying the given content. -/
def countUserInput (l : List MsgObj) (input : String) : Nat :=
  (l.filter (fun m => m.role == Role.user && m.content == input)).length

/-- Number of user-role message objects. -/
def countUserRole (l : List MsgObj) : Nat :=
  (l.filter (fun m => m.role == Role.user)).length

theorem exists_concat_of_getLast? (l : List MsgObj) (m : MsgObj)
    (h : l.getLast? = some m) : l = l.dropLast ++ [m] := by
  rcases List.eq_nil_or_concat l with rfl | ⟨l2, a, rfl⟩
  · exact absurd h (by simp)
  · rw [List.concat_eq_append] at h ⊢
    rw [List.getLast?_concat] at h
    injection h with h
    rw [List.dropLast_concat, h]

theorem applyStreamEv_counts (t : Transcript) (ev : StreamEv) (input : String) :
    countUserInput (applyStreamEv t ev).msgs input = countUserInput t.msgs input
    ∧ countUserRole (applyStreamEv t ev).msgs = countUserRole t.msgs := by
  cases ev with
  | textDelta d e =>
    show countUserInput (appendTextDelta t d e).msgs input = _
      ∧ countUserRole (appendTextDelta t d e).msgs = _
    cases hl : t.msgs.getLast? with
    | none =>
      constructor
      · simp [appendTextDelta, hl, countUserInput, List.filter_append]
      · simp [appendTextDelta, hl, countUserRole, List.filter_append]
    | some lastMessage =>
      by_cases hr : lastMessage.role = Role.agent
      · have hmsgs := exists_concat_of_getLast? t.msgs lastMessage hl
        constructor
        · conv_rhs => rw [hmsgs]
          simp [appendTextDelta, hl, hr, countUserInput, List.filter_append]
        · conv_rhs => rw [hmsgs]
          simp [appendTextDelta, hl, hr, countUserRole, List.filter_append]
      · constructor
        · simp [appendTextDelta, hl, hr, countUserInput, List.filter_append]
        · simp [appendTextDelta, hl, hr, countUserRole, List.filter_append]
  | attachExec e =>
    show countUserInput (attachExecutionIdTagged t e).msgs input = _
      ∧ countUserRole (attachExecutionIdTagged t e).msgs = _
    cases hl : t.msgs.getLast? with
    | none => simp [attachExecutionIdTagged, hl]
    | some lastMessage =>
      by_cases hr : lastMessage.role = Role.user
      · have hmsgs := exists_concat_of_getLast? t.msgs lastMessage hl
        constructor
        · conv_rhs => rw [hmsgs]
          cases hc : (lastMessage.content == input) <;>
            simp [attachExecutionIdTagged, hl, hr, countUserInput, List.filter_append,
              List.filter_cons, hc]
        · conv_rhs => rw [hmsgs]
          simp [attachExecutionIdTagged, hl, hr, countUserRole, List.filter_append]
      · constructor
        · simp [attachExecutionIdTagged, hl, hr]
        · simp [attachExecutionIdTagged, hl, hr]

theorem applyStream_counts (t : Transcript) (evs : List StreamEv) (input : String) :
    countUserInput (applyStream t evs).msgs input = countUserInput t.msgs input
    ∧ countUserRole (applyStream t evs).msgs = countUserRole t.msgs := by
  induction evs generalizing t with
  | nil => exact ⟨rfl, rfl⟩
  | cons ev rest ih =>
    have h1 := applyStreamEv_counts t ev input
    have h2 := ih (applyStreamEv t ev)
    have hstep : applyStream t (ev :: rest) = applyStream (applyStreamEv t ev) rest := rfl
    exact ⟨by rw [hstep, h2.1, h1.1], by rw [hstep, h2.2, h1.2]⟩

theorem applyStreamEv_user_mem (t : Transcript) (ev : StreamEv) (m : MsgObj)
    (hm : m ∈ t.msgs) (hrole : m.role = Role.user)
    (hnoattach : ∀ e, ev ≠ StreamEv.attachExec e) :
    m ∈ (applyStreamEv t ev).msgs := by
  cases ev with
  | attachExec e => exact absurd rfl (hnoattach e)
  | textDelta d e =>
    show m ∈ (appendTextDelta t d e).msgs
    cases hl : t.msgs.getLast? with
    | none =>
      simp only [appendTextDelta, hl]
      exact List.mem_append.mpr (Or.inl hm)
    | some lastMessage =>
      by_cases hr : lastMessage.role = Role.agent
      · have hmsgs := exists_concat_of_getLast? t.msgs lastMessage hl
        have hne : m ≠ lastMessage := by
          intro hEq
          rw [hEq, hr] at hrole
          cases hrole
        have hmem2 : m ∈ t.msgs.dropLast := by
          rw [hmsgs] at hm
          rcases List.mem_append.mp hm with hIn | hIn
          · exact hIn
          · exact absurd (List.mem_singleton.mp hIn) hne
        simp only [appendTextDelta, hl, hr, if_pos rfl]
        exact List.mem_append.mpr (Or.inl hmem2)
      · simp only [appendTextDelta, hl, hr]
        exact List.mem_append.mpr (Or.inl hm)

theorem applyStream_user_mem (t : Transcript) (evs : List StreamEv) (m : MsgObj)
    (hm : m ∈ t.msgs) (hrole : m.role = Role.user)
    (hnoattach : ∀ ev ∈ evs, ∀ e, ev ≠ StreamEv.attachExec e) :
    m ∈ (applyStream t evs).msgs := by
  induction evs generalizing t with
  | nil => exact hm
  | cons ev rest ih =>
    exact ih (applyStreamEv t ev)
      (applyStreamEv_user_mem t ev m hm hrole (hnoattach ev (List.mem_cons_self ev rest)))
      (fun ev2 h2 => hnoattach ev2 (List.mem_cons_of_mem ev h2))

/-- Claim C2 counterexample: send `"hi"` into an empty transcript without
`skipUserMessage`; the execution-id header arrives (replacing the user
message object by a copy), then the attempt fails.  The catch block's
reference-equality check (`prev.some((m) => m === userMessage)`) misses the
copy, so the user message is appended a second time: the final transcript
holds two user messages with content `"hi"`, not exactly one. -/
theorem C2_counterexample :
    countUserInput (handleSend { msgs := [], fresh := 0 } "hi" false "p"
        [StreamEv.attachExec "e1"] true).msgs "hi" = 2 := by
  decide

/-- Claim C2 (amended): with `skipUserMessage: true`, `handleSend` never
appends a user message regardless of outcome.  Without it, when the
transcript held no user message with the sent content: exactly one such
message is present after success; exactly one is present after failure
provided no execution-id header replaced the user message object during the
attempt; and at least one is always present after failure (the input is never
lost) — but when the execution-id header did replace the object before a
failure, a duplicate may be appended (see the counterexample). -/
theorem C2_send_user_message (t : Transcript) (input provisionalId : String)
    (evs : List StreamEv) (fails : Bool)
    (h0 : countUserInput t.msgs input = 0) :
    countUserRole (handleSend t input true provisionalId evs fails).msgs
      = countUserRole t.msgs
    ∧ (fails = false →
        countUserInput (handleSend t input false provisionalId evs fails).msgs input = 1)
    ∧ ((∀ e, StreamEv.attachExec e ∉ evs) →
        countUserInput (handleSend t input false provisionalId evs fails).msgs input = 1)
    ∧ 1 ≤ countUserInput (handleSend t input false provisionalId evs fails).msgs input := by
  have hc1 : countUserInput
      (t.msgs ++ [{ tag := t.fresh, role := Role.user, content := input, executionId := some provisionalId }]) input = 1 := by
    have h0f : (List.filter (fun m => m.role == Role.user && m.content == input) t.msgs).length
        = 0 := h0
    simp [countUserInput, List.filter_append, h0f]
  have hcount2 : countUserInput ((applyStream
      { msgs := t.msgs ++ [{ tag := t.fresh, role := Role.user, content := input, executionId := some provisionalId }], fresh := t.fresh + 1 } evs).msgs) input = 1 := by
    rw [(applyStream_counts _ evs input).1]
    exact hc1
  have hskipEq : handleSend t input true provisionalId evs fails = applyStream t evs := by
    cases fails <;> rfl
  refine ⟨?_, ?_, ?_, ?_⟩
  · rw [hskipEq]
    exact (applyStream_counts t evs input).2
  · intro hf
    subst hf
    exact hcount2
  · intro hna
    cases fails with
    | false => exact hcount2
    | true =>
      have hu2 : ({ tag := t.fresh, role := Role.user, content := input, executionId := some provisionalId } : MsgObj) ∈ (applyStream
          { msgs := t.msgs ++ [{ tag := t.fresh, role := Role.user, content := input, executionId := some provisionalId }], fresh := t.fresh + 1 } evs).msgs :=
        applyStream_user_mem _ evs _ (List.mem_append.mpr (Or.inr (List.mem_singleton.mpr rfl)))
          rfl (fun ev hev e hEq => absurd (hEq ▸ hev) (hna e))
      have hany : ((applyStream
          { msgs := t.msgs ++ [{ tag := t.fresh, role := Role.user, content := input, executionId := some provisionalId }], fresh := t.fresh + 1 } evs).msgs.any
          (fun m => m.tag == t.fresh)) = true :=
        List.any_eq_true.mpr ⟨_, hu2, by simp⟩
      have heq : handleSend t input false provisionalId evs true
          = applyStream { msgs := t.msgs ++ [{ tag := t.fresh, role := Role.user, content := input, executionId := some provisionalId }], fresh := t.fresh + 1 } evs := by
        simp [handleSend, hany]
      rw [heq]
      exact hcount2
  · cases fails with
    | false =>
      have heq : handleSend t input false provisionalId evs false
          = applyStream { msgs := t.msgs ++ [{ tag := t.fresh, role := Role.user, content := input, executionId := some provisionalId }], fresh := t.fresh + 1 } evs := rfl
      rw [heq, hcount2]
    | true =>
      by_cases hany : ((applyStream
          { msgs := t.msgs ++ [{ tag := t.fresh, role := Role.user, content := input, executionId := some provisionalId }], fresh := t.fresh + 1 } evs).msgs.any
          (fun m => m.tag == t.fresh)) = true
      · have heq : handleSend t input false provisionalId evs true
            = applyStream { msgs := t.msgs ++ [{ tag := t.fresh, role := Role.user, content := input, executionId := some provisionalId }], fresh := t.fresh + 1 } evs := by
          simp [handleSend, hany]
        rw [heq, hcount2]
      · have hany2 : ((applyStream
            { msgs := t.msgs ++ [{ tag := t.fresh, role := Role.user, content := input, executionId := some provisionalId }], fresh := t.fresh + 1 } evs).msgs.any
            (fun m => m.tag == t.fresh)) = false := Bool.eq_false_iff.mpr hany
        have heq : handleSend t input false provisionalId evs true
            = { msgs := (applyStream { msgs := t.msgs ++ [{ tag := t.fresh, role := Role.user, content := input, executionId := some provisionalId }], fresh := t.fresh + 1 } evs).msgs ++ [{ tag := t.fresh, role := Role.user, content := input, executionId := some provisionalId }], fresh := (applyStream { msgs := t.msgs ++ [{ tag := t.fresh, role := Role.user, content := input, executionId := some provisionalId }], fresh := t.fresh + 1 } evs).fresh } := by
          simp [handleSend, hany2]
        rw [heq]
        have hplus : countUserInput ((applyStream { msgs := t.msgs ++ [{ tag := t.fresh, role := Role.user, content := input, executionId := some provisionalId }], fresh := t.fresh + 1 } evs).msgs ++ [{ tag := t.fresh, role := Role.user, content := input, executionId := some provisionalId }]) input
            = countUserInput ((applyStream { msgs := t.msgs ++ [{ tag := t.fresh, role := Role.user, content := input, executionId := some provisionalId }], fresh := t.fresh + 1 } evs).msgs) input + 1 := by
          simp [countUserInput, List.filter_append]
        rw [hplus, hcount2]
        omega

theorem C2_send_user_message_witness :
    countUserInput (handleSend { msgs := [], fresh := 0 } "hi" false "p" [] true).msgs "hi" = 1 :=
  (C2_send_user_message { msgs := [], fresh := 0 } "hi" "p" [] true (by decide)).2.2.1
    (fun e h => by simp at h)

/-! ## Execution-id response header (C7) -/

/-- Claim C7 counterexample: the most recent message is a user message that
already carries the provisional execution id `"prov"`; when the header
`"exec_1"` arrives, `{...lastMessage, executionId}` replaces the id
unconditionally, so the existing id is overwritten.  The claim as stated says
an executionId already present is never overwritten. -/
theorem C7_counterexample :
    (onopenExecutionId "a" 7 (some "exec_1")
        [{ role := Role.user, content := "hi", executionId := some "prov" }] repoSt0).1
      = [{ role := Role.user, content := "hi", executionId := some "exec_1" }] := by
  rfl

/-- Claim C7 (amended): when a streaming response carries an execution-id
header, the id is attached to the most recent transcript message only when
that message's role is user — replacing any executionId already present on
it, as the counterexample shows — and when it is attached, the mutated
transcript is synchronized to the current session immediately (the session
record of any non-falsy, non-sentinel current session id holds the updated
messages and the fresh timestamp).  With a non-user last message, an empty
transcript, or no header, nothing changes. -/
theorem C7_execution_id_attach (agentId : String) (now : Nat) (eid : String)
    (msgs : List Message) (st : RepoState) (lastMessage : Message)
    (hlast : msgs.getLast? = some lastMessage) :
    (lastMessage.role = Role.user →
      (onopenExecutionId agentId now (some eid) msgs st).1
        = msgs.dropLast ++ [{ lastMessage with executionId := some eid }]
      ∧ ∀ cur, st.currentSessionId = some cur →
          (cur == "" || cur == TEMPORARY_SESSION_ID) = false →
          (objLookup (((onopenExecutionId agentId now (some eid) msgs st).2).allSessions agentId) cur).map Session.messages
            = some (msgs.dropLast ++ [{ lastMessage with executionId := some eid }])
          ∧ (objLookup (((onopenExecutionId agentId now (some eid) msgs st).2).allSessions agentId) cur).map Session.updatedAt
            = some now)
    ∧ (lastMessage.role ≠ Role.user → onopenExecutionId agentId now (some eid) msgs st = (msgs, st))
    ∧ onopenExecutionId agentId now none msgs st = (msgs, st) := by
  refine ⟨?_, ?_, rfl⟩
  · intro hrole
    have h1 : (onopenExecutionId agentId now (some eid) msgs st).1
        = msgs.dropLast ++ [{ lastMessage with executionId := some eid }] := by
      simp [onopenExecutionId, hlast, hrole]
    refine ⟨h1, ?_⟩
    intro cur hcur hguard
    have hsync : (onopenExecutionId agentId now (some eid) msgs st).2
        = syncSession agentId now (msgs.dropLast ++ [{ lastMessage with executionId := some eid }]) st := by
      simp [onopenExecutionId, hlast, hrole]
    have hfl : isFalsyOrTemp (some cur) = false := hguard
    rw [hsync]
    have hall : (syncSession agentId now (msgs.dropLast ++ [{ lastMessage with executionId := some eid }]) st).allSessions agentId
        = objSet (st.allSessions agentId) cur
            (match objLookup (st.allSessions agentId) cur with
              | some s => { s with messages := msgs.dropLast ++ [{ lastMessage with executionId := some eid }], updatedAt := now }
              | none => { id := none, createdAt := none, updatedAt := now, messages := msgs.dropLast ++ [{ lastMessage with executionId := some eid }], name := none }) := by
      simp [syncSession, hcur, hfl]
    rw [hall, objLookup_objSet_self]
    cases objLookup (st.allSessions agentId) cur with
    | none => exact ⟨rfl, rfl⟩
    | some s => exact ⟨rfl, rfl⟩
  · intro hrole
    simp [onopenExecutionId, hlast, hrole]

/-- A repository state with an established (non-sentinel) current session. -/
def c7St : RepoState := { allSessions := fun _ => [], currentSessionId := some "s1" }

theorem C7_execution_id_attach_witness :
    (onopenExecutionId "a" 7 (some "exec_1")
        [{ role := Role.user, content := "hi", executionId := some "prov" }] c7St).1
      = [{ role := Role.user, content := "hi", executionId := some "exec_1" }]
    ∧ (objLookup (((onopenExecutionId "a" 7 (some "exec_1")
        [{ role := Role.user, content := "hi", executionId := some "prov" }] c7St).2).allSessions "a") "s1").map Session.messages
      = some [{ role := Role.user, content := "hi", executionId := some "exec_1" }] := by
  have h := (C7_execution_id_attach "a" 7 "exec_1"
      [{ role := Role.user, content := "hi", executionId := some "prov" }] c7St
      { role := Role.user, content := "hi", executionId := some "prov" } rfl).1 rfl
  have h2 := h.2 "s1" rfl (by decide)
  exact ⟨h.1, h2.1⟩

/-! ## Synced storage atom writes (C8) -/

/-- Claim C8 counterexample: a write of `100` exceeding the quota (`fits` is
`n ≤ 9`) with no override function: the retry inside the `catch` re-attempts
the same value, which throws again, and the exception escapes to the caller —
the in-memory value still updates and the stored value is unchanged.  The
claim as stated says that with no override the write is lost silently and no
error surfaces. -/
theorem C8_counterexample :
    (writeSynced (fun n : Nat => decide (n ≤ 9)) (fun n => n == 0) none 0
        { mem := 0, stored := some 0 } (UpdateArg.lit (ValOrReset.val 100))).threw = true
    ∧ (writeSynced (fun n : Nat => decide (n ≤ 9)) (fun n => n == 0) none 0
        { mem := 0, stored := some 0 } (UpdateArg.lit (ValOrReset.val 100))).state.mem = 100
    ∧ (writeSynced (fun n : Nat => decide (n ≤ 9)) (fun n => n == 0) none 0
        { mem := 0, stored := some 0 } (UpdateArg.lit (ValOrReset.val 100))).state.stored = some 0 := by
  refine ⟨rfl, rfl, rfl⟩

/-- Claim C8 (amended): on a write whose value is rejected by the storage
backend, the write is retried exactly once, using the caller-supplied
degraded value when an override function is provided (and that retry
persists the degraded value when it fits, surfacing no error); when no
override function is provided, the retry re-attempts the same rejected value
and the quota error propagates to the caller — the write is not silent — the
in-memory atom value still updates to the new value and the persisted value
is unchanged. -/
theorem C8_quota_retry {V : Type} (fits : V → Bool) (isFalsy : V → Bool) (initV : V)
    (st : AtomState V) (v : V) (hv : fits v = false) :
    (∀ f : V → V, isFalsy (f v) = false → fits (f v) = true →
        writeSynced fits isFalsy (some f) initV st (UpdateArg.lit (ValOrReset.val v))
          = { state := { mem := v, stored := some (f v) }, threw := false })
    ∧ writeSynced fits isFalsy none initV st (UpdateArg.lit (ValOrReset.val v))
        = { state := { mem := v, stored := st.stored }, threw := true } := by
  constructor
  · intro f hfalsy hfit
    simp [writeSynced, hv, hfalsy, hfit]
  · simp [writeSynced, hv]

theorem C8_quota_retry_witness :
    writeSynced (fun n : Nat => decide (n ≤ 9)) (fun n => n == 0) (some (fun _ => 5)) 0
        { mem := 0, stored := some 0 } (UpdateArg.lit (ValOrReset.val 100))
      = { state := { mem := 100, stored := some 5 }, threw := false } :=
  (C8_quota_retry (fun n : Nat => decide (n ≤ 9)) (fun n => n == 0) 0
      { mem := 0, stored := some 0 } 100 (by decide)).1 (fun _ => 5) (by decide) (by decide)

end AgentRunner
